import Mathlib

/-!
Verification development for the `network_monitor` repository.

The Rust sources are embedded shallowly: the configuration data model comes
from `src/network_monitor/src/config/mod.rs`, the monitoring/recovery control
loop from `src/network_monitor/src/monitor/mod.rs`, and the probe executor
from `src/network_monitor/src/network/mod.rs`.  External effects (ICMP pings,
TCP connects, command execution, the Ctrl+C flag) are supplied by explicit
environment records; every log line and sleep of the source becomes an `Event`
in a trace, so the theorems can speak about what was logged, attempted and
slept, and in which order.
-/

namespace NetworkMonitor

/-! ## Data model (config/mod.rs) -/

/-- `NetworkTarget` from config/mod.rs: one monitored endpoint. -/
structure NetworkTarget where
  name : String
  address : String
  port : Option Nat
  timeout_ms : Option Nat
  retry_count : Option Nat
deriving DecidableEq, Repr

/-- `RecoveryAction` from config/mod.rs: one step of the recovery plan. -/
structure RecoveryAction where
  name : String
  command : String
  wait_after_ms : Option Nat
deriving DecidableEq, Repr

/-- `Config` from config/mod.rs: the aggregate configuration root. -/
structure Config where
  default_target : String
  check_interval_sec : Nat
  ping_timeout_ms : Nat
  retry_count : Nat
  targets : List NetworkTarget
  recovery_actions : List RecoveryAction
  log_file : Option String
  notification_enabled : Bool
  notification_command : Option String
deriving DecidableEq, Repr

/-- `Config::get_target_timeout`: per-target timeout override, else the
global `ping_timeout_ms` default (in milliseconds). -/
def Config.get_target_timeout (c : Config) (t : NetworkTarget) : Nat :=
  t.timeout_ms.getD c.ping_timeout_ms

/-- `Config::get_target_retry_count`: per-target retry override, else the
global `retry_count` default. -/
def Config.get_target_retry_count (c : Config) (t : NetworkTarget) : Nat :=
  t.retry_count.getD c.retry_count

/-- `impl Default for Config` from config/mod.rs, field for field. -/
def Config.defaultConfig : Config :=
  { default_target := "8.8.8.8"
    check_interval_sec := 60
    ping_timeout_ms := 1000
    retry_count := 3
    targets :=
      [ { name := "Google DNS", address := "8.8.8.8", port := none,
          timeout_ms := some 1000, retry_count := some 3 },
        { name := "Local Router", address := "192.168.1.1", port := none,
          timeout_ms := some 500, retry_count := some 2 } ]
    recovery_actions :=
      [ { name := "네트워크 어댑터 재시작",
          command := "powershell -Command \"Restart-NetAdapter -Name 'Ethernet' -Confirm:$false\"",
          wait_after_ms := some 5000 } ]
    log_file := some "network_monitor.log"
    notification_enabled := true
    notification_command := some "powershell -Command \"[System.Reflection.Assembly]::LoadWithPartialName('System.Windows.Forms'); [System.Windows.Forms.MessageBox]::Show('네트워크 연결이 복구되었습니다.', '네트워크 모니터', [System.Windows.Forms.MessageBoxButtons]::OK, [System.Windows.Forms.MessageBoxIcon]::Information)\"" }

/-! ## Trace events

Each constructor corresponds to one observable step of monitor/mod.rs:
a log line, a sleep, or a probe/command side effect. -/

inductive Event where
  /-- One probe attempt of the retry loop in `start_monitoring`
  (lines 83-107): every attempt produces exactly one log line
  (info on success, warn on a non-final failure, error on the final one). -/
  | pingAttempt (targetName : String) (attempt : Nat) (ok : Bool)
  /-- The fixed `time::sleep(Duration::from_millis(500))` between a failed
  non-final attempt and the next attempt. -/
  | backoffSleep
  /-- A TCP connect check (`network::check_port`) with the per-target
  timeout, as performed by `check_status`. -/
  | portCheck (targetName : String) (port : Nat) (timeout_ms : Nat) (ok : Bool)
  /-- The single-shot ping of `check_status` (no retry). -/
  | statusPing (targetName : String) (ok : Bool)
  /-- The `error!("모든 네트워크 대상 연결 실패, 복구 작업 시작")` log that
  accompanies the invocation of `perform_recovery_actions`. -/
  | recoveryStart
  /-- `info!("복구 작업 '{}' 실행 중", ...)`: a recovery action's command is
  about to be executed. -/
  | execAction (actionName : String)
  /-- The action's command returned success. -/
  | actionSucceeded (actionName : String)
  /-- The action's command failed; the captured error text is logged. -/
  | actionFailed (actionName : String) (err : String)
  /-- The optional `wait_after_ms` sleep after a successful action. -/
  | waitAfter (ms : Nat)
  /-- `check_recovery_success`: one verification ping of the default target
  with the default timeout. -/
  | verifyProbe (target : String) (timeout_ms : Nat) (ok : Bool)
  /-- `info!("네트워크 연결이 복구되었습니다")`. -/
  | recovered
  /-- The notification command succeeded. -/
  | notifySucceeded
  /-- The notification command failed (logged as a warning only). -/
  | notifyFailed (err : String)
  /-- `error!("모든 복구 작업이 실패했습니다")`: the plan was exhausted. -/
  | allActionsFailed
  /-- The cadence sleep `time::sleep(interval)` at the end of a cycle. -/
  | cadenceSleep (sec : Nat)
  /-- `warn!("이미 모니터링이 실행 중입니다")`: the concurrency guard was
  already set. -/
  | alreadyRunningWarn
  /-- `info!("네트워크 모니터링 시작")`. -/
  | monitorStartLog
  /-- `info!("네트워크 모니터링 종료")`. -/
  | monitorStopLog
deriving DecidableEq, Repr

/-! ## Environments: outcomes of the external effects -/

/-- Outcomes of the external effects during one monitoring cycle:
`ping i k` is the result of probe attempt `k` (1-based) on the target with
index `i`; `recCmd j` is the result of recovery action `j`'s command;
`recVerify j` the verification ping after action `j`; `notify` the
notification command's result. -/
structure CycleEnv where
  ping : Nat → Nat → Bool
  recCmd : Nat → Except String String
  recVerify : Nat → Bool
  notify : Except String String

/-- Outcomes of the external effects over a whole `start_monitoring` run:
`ctrlcOk` is whether `ctrlc::set_handler` succeeds, `runFlag i` the value the
`running` flag is observed to hold at the top of iteration `i`, and `cycle i`
the effect outcomes of cycle `i`. -/
structure MonitorEnv where
  ctrlcOk : Bool
  runFlag : Nat → Bool
  cycle : Nat → CycleEnv

/-- Outcomes of the external effects during one `check_status` pass:
one ping and (when a port is declared) one port check per target index. -/
structure StatusEnv where
  ping : Nat → Bool
  portCheck : Nat → Bool

/-! ## The per-target retry loop (start_monitoring, lines 78-111)

The Rust loop is `for attempt in 1..=retry_count` with `break` on the first
success; a failure logs and, unless the attempt is the last one
(`attempt == retry_count`), sleeps 500ms before the next attempt.  It is
embedded with `remaining = retry_count + 1 - attempt` as the structural
recursion measure: `remaining = 1` is exactly the last attempt. -/

def probeGo (name : String) (ping : Nat → Bool) (attempt : Nat) :
    Nat → List Event × Bool
  | 0 => ([], false)
  | 1 =>
    if ping attempt then ([.pingAttempt name attempt true], true)
    else ([.pingAttempt name attempt false], false)
  | (r + 2) =>
    if ping attempt then ([.pingAttempt name attempt true], true)
    else
      let rest := probeGo name ping (attempt + 1) (r + 1)
      (.pingAttempt name attempt false :: .backoffSleep :: rest.1, rest.2)

/-- The retry loop for one target, starting at attempt 1 with the target's
effective attempt budget `Config.get_target_retry_count`.  Returns the trace
and the final `success` flag. -/
def probeTarget (config : Config) (ping : Nat → Bool) (t : NetworkTarget) :
    List Event × Bool :=
  probeGo t.name ping 1 (config.get_target_retry_count t)

/-- The per-cycle target sweep (start_monitoring, lines 74-112): probe every
target and compute the `all_targets_failed` flag, which starts `true` and is
set `false` by any target whose retry loop succeeded. -/
def runTargets (config : Config) (env : CycleEnv) : List Event × Bool :=
  let rs := config.targets.enum.map fun p => probeTarget config (env.ping p.1) p.2
  ((rs.map Prod.fst).flatten, rs.all fun r => !r.2)

/-! ## The recovery coordinator (perform_recovery_actions, lines 132-172) -/

/-- The optional `wait_after_ms` sleep after a successful action (lines
141-144): one `waitAfter` event when the action declares a wait. -/
def waitEvents (a : RecoveryAction) : List Event :=
  match a.wait_after_ms with
  | some ms => [.waitAfter ms]
  | none => []

/-- The best-effort notification (lines 152-159): fired only when
`notification_enabled` is set and a command is configured; its failure is
logged as a warning and swallowed. -/
def notifyEvents (config : Config) (env : CycleEnv) : List Event :=
  if config.notification_enabled then
    match config.notification_command with
    | some _ =>
      match env.notify with
      | .ok _ => [.notifySucceeded]
      | .error e => [.notifyFailed e]
    | none => []
  else []

/-- The body of `perform_recovery_actions`, indexed by the position `idx` of
the first remaining action in the original plan.  On command failure the
source logs the error and the `for` loop continues with the next action;
on command success it optionally sleeps `wait_after_ms`, then runs
`check_recovery_success` (one ping of `default_target` with
`ping_timeout_ms`); on a successful verification it logs recovery, fires the
notification command best-effort, and returns `Ok(())`; if the loop finishes
it logs that all actions failed and also returns `Ok(())`. -/
def recoverFrom (config : Config) (env : CycleEnv) :
    List RecoveryAction → Nat → List Event × Except String Unit
  | [], _ => ([.allActionsFailed], .ok ())
  | a :: rest, idx =>
    match env.recCmd idx with
    | .error e =>
      let next := recoverFrom config env rest (idx + 1)
      (.execAction a.name :: .actionFailed a.name e :: next.1, next.2)
    | .ok _ =>
      let vOk := env.recVerify idx
      let vEv : Event := .verifyProbe config.default_target config.ping_timeout_ms vOk
      if vOk then
        (.execAction a.name :: .actionSucceeded a.name ::
           waitEvents a ++ vEv :: .recovered :: notifyEvents config env,
         .ok ())
      else
        let next := recoverFrom config env rest (idx + 1)
        (.execAction a.name :: .actionSucceeded a.name :: waitEvents a ++ vEv :: next.1,
         next.2)

/-- `perform_recovery_actions` over the configured plan. -/
def performRecoveryActions (config : Config) (env : CycleEnv) :
    List Event × Except String Unit :=
  recoverFrom config env config.recovery_actions 0

/-! ## One monitoring cycle and the loop (start_monitoring, lines 74-122) -/

/-- One iteration of the `while running` loop: sweep all targets, then, when
`all_targets_failed && !config.recovery_actions.is_empty()`, log and invoke
the recovery coordinator. -/
def runCycle (config : Config) (env : CycleEnv) : List Event × Except String Unit :=
  let (evs, allFailed) := runTargets config env
  if allFailed && !config.recovery_actions.isEmpty then
    let rec' := performRecoveryActions config env
    (evs ++ Event.recoveryStart :: rec'.1, rec'.2)
  else
    (evs, .ok ())

/-- The `while running.load(..)` loop: at the top of iteration `i` the
`running` flag is observed as `env.runFlag i`; a cycle is followed by the
cadence sleep.  An error from the cycle (propagated by `?` in the source)
would abort the loop; `fuel` bounds the number of observed iterations. -/
def monitorLoop (config : Config) (env : MonitorEnv) :
    Nat → Nat → List Event × Except String Unit
  | 0, _ => ([], .ok ())
  | (fuel + 1), i =>
    if env.runFlag i then
      match runCycle config (env.cycle i) with
      | (evs, .error e) => (evs, .error e)
      | (evs, .ok _) =>
        let rest := monitorLoop config env fuel (i + 1)
        (evs ++ .cadenceSleep config.check_interval_sec :: rest.1, rest.2)
    else ([], .ok ())

/-- Model of `utils::logging::setup_file_logger`: the logger is initialized
inside a `Once::call_once`; a file-creation failure is printed to stderr and
swallowed, and the function returns `Ok(())` on every path. -/
def setupFileLogger (_logFile : String) : Except String Unit := .ok ()

/-- The process-wide guard `MONITORING_ACTIVE` (an `AtomicBool`). -/
structure MonitorState where
  monitoringActive : Bool
deriving DecidableEq, Repr

/-- What one invocation of `start_monitoring` produces: its trace, its
`Result` value, and the guard state it leaves behind. -/
structure StartResult where
  events : List Event
  result : Except String Unit
  state : MonitorState
deriving Repr

/-- `start_monitoring` (lines 48-129).  `MONITORING_ACTIVE.swap(true)` at
entry: when the guard is already set the call warns and returns `Ok(())`
at once.  Otherwise the guard is now set; the log file is set up, the Ctrl+C
handler is installed (its failure is propagated by `?` — note the guard is
not cleared on this path), the loop runs, and only after the loop exits is
the guard stored back to `false`. -/
def startMonitoring (config : Config) (env : MonitorEnv) (fuel : Nat)
    (st : MonitorState) : StartResult :=
  if st.monitoringActive then
    { events := [.alreadyRunningWarn], result := .ok ()
      state := { monitoringActive := true } }
  else
    let logSetup : Except String Unit :=
      match config.log_file with
      | some f => setupFileLogger f
      | none => .ok ()
    match logSetup with
    | .error e =>
      { events := [.monitorStartLog], result := .error e
        state := { monitoringActive := true } }
    | .ok _ =>
      if env.ctrlcOk then
        let lp := monitorLoop config env fuel 0
        match lp.2 with
        | .error e =>
          { events := .monitorStartLog :: lp.1, result := .error e
            state := { monitoringActive := true } }
        | .ok _ =>
          { events := .monitorStartLog :: lp.1 ++ [.monitorStopLog], result := .ok ()
            state := { monitoringActive := false } }
      else
        { events := [.monitorStartLog], result := .error "ctrlc set_handler failed"
          state := { monitoringActive := true } }

/-! ## check_status (monitor/mod.rs, lines 14-44)

One pass over the targets: a single ping each (never retried) and, when the
target declares a port, one `check_port` with the per-target timeout. -/

def checkStatus (config : Config) (env : StatusEnv) : List Event :=
  config.targets.enum.flatMap fun p =>
    Event.statusPing p.2.name (env.ping p.1) ::
      (match p.2.port with
       | some port =>
         [Event.portCheck p.2.name port (config.get_target_timeout p.2) (env.portCheck p.1)]
       | none => [])

/-! ## The probe executor's address gate (network/mod.rs, ping_host)

`ping_host` first runs `IpAddr::from_str(host)` and returns an error before
touching the network when that parse fails.  `parseOctet`, `parseIpv4`,
`parseHexGroup` and `parseIpv6` below model the Rust standard library's
`IpAddr` grammar: an IPv4 address is four decimal octets `0..=255` of at most
three digits with no leading zero, and an IPv6 address is hexadecimal groups
of at most four digits separated by `:`, with at most one `::` expanding to
at least one zero group and an optional trailing embedded IPv4 pair. -/

/-- Splitting a character list at every occurrence of a separator
character (the model of splitting the host string at `.` or `:`). -/
def splitOnChar (c : Char) : List Char → List (List Char)
  | [] => [[]]
  | x :: rest =>
    if x = c then [] :: splitOnChar c rest
    else
      match splitOnChar c rest with
      | [] => [[x]]
      | g :: gs => (x :: g) :: gs

/-- Splitting a character list at every non-overlapping occurrence of
`"::"`, left to right. -/
def splitOnColonColon : List Char → List (List Char)
  | [] => [[]]
  | [x] => [[x]]
  | x :: y :: rest =>
    if x = ':' ∧ y = ':' then [] :: splitOnColonColon rest
    else
      match splitOnColonColon (y :: rest) with
      | [] => [[x]]
      | g :: gs => (x :: g) :: gs

/-- One decimal IPv4 octet: 1-3 digits, no leading zero, value at most 255. -/
def parseOctet (cs : List Char) : Option Nat :=
  if cs.length = 0 ∨ 3 < cs.length then none
  else if ¬ cs.all Char.isDigit then none
  else if 1 < cs.length ∧ cs.head? = some '0' then none
  else
    let v := cs.foldl (fun acc c => acc * 10 + (c.toNat - '0'.toNat)) 0
    if v ≤ 255 then some v else none

/-- `Ipv4Addr::from_str`: exactly four octets separated by dots. -/
def parseIpv4Chars (cs : List Char) : Option (Nat × Nat × Nat × Nat) :=
  match (splitOnChar '.' cs).mapM parseOctet with
  | some [a, b, c, d] => some (a, b, c, d)
  | _ => none

/-- One hexadecimal IPv6 group: 1-4 hex digits. -/
def parseHexGroup (cs : List Char) : Option Nat :=
  if cs.length = 0 ∨ 4 < cs.length then none
  else if ¬ cs.all (fun c => c.isDigit ∨ ('a' ≤ c ∧ c ≤ 'f') ∨ ('A' ≤ c ∧ c ≤ 'F')) then
    none
  else some (cs.foldl (fun acc c =>
    acc * 16 + (if c.isDigit then c.toNat - '0'.toNat
                else if 'a' ≤ c then c.toNat - 'a'.toNat + 10
                else c.toNat - 'A'.toNat + 10)) 0)

/-- A colon-separated group sequence whose last component may be an embedded
IPv4 address (contributing two 16-bit groups). -/
def parseGroupsV4End : List (List Char) → Option (List Nat)
  | [] => some []
  | [last] =>
    match parseHexGroup last with
    | some g => some [g]
    | none =>
      match parseIpv4Chars last with
      | some (a, b, c, d) => some [a * 256 + b, c * 256 + d]
      | none => none
  | p :: rest => do
    let g ← parseHexGroup p
    let gs ← parseGroupsV4End rest
    pure (g :: gs)

/-- A colon-separated group sequence of hex groups only (the part before a
`::`). -/
def parseGroupsHex : List (List Char) → Option (List Nat)
  | [] => some []
  | p :: rest => do
    let g ← parseHexGroup p
    let gs ← parseGroupsHex rest
    pure (g :: gs)

/-- `Ipv6Addr::from_str`: either eight groups with no `::`, or one `::`
splitting head groups from tail groups with `head + tail < 8`, the gap
filled with zero groups; the final group position may hold an embedded
IPv4 address. -/
def parseIpv6Chars (cs : List Char) : Option (List Nat) :=
  match splitOnColonColon cs with
  | [whole] => do
    let gs ← parseGroupsV4End (splitOnChar ':' whole)
    if gs.length = 8 then pure gs else none
  | [head, tail] => do
    let hg ← parseGroupsHex (if head = [] then [] else splitOnChar ':' head)
    let tg ← parseGroupsV4End (if tail = [] then [] else splitOnChar ':' tail)
    if hg.length + tg.length < 8 then
      pure (hg ++ List.replicate (8 - hg.length - tg.length) 0 ++ tg)
    else none
  | _ => none

/-- `std::net::IpAddr`. -/
inductive IpAddr where
  | v4 (a b c d : Nat)
  | v6 (groups : List Nat)
deriving DecidableEq, Repr

/-- `IpAddr::from_str`: try IPv4 on the host string, then IPv6. -/
def ipAddrFromStr (s : String) : Option IpAddr :=
  match parseIpv4Chars s.data with
  | some (a, b, c, d) => some (.v4 a b c d)
  | none =>
    match parseIpv6Chars s.data with
    | some gs => some (.v6 gs)
    | none => none

/-- A network-level probe effect: the single `pinger.send` of `ping_host`. -/
inductive NetEvent where
  | icmpSend (ip : IpAddr)
deriving DecidableEq, Repr

/-- Outcomes of `ping_host`'s two fallible external steps: `Pinger::new` and
`pinger.send` (the latter returns the elapsed round-trip time in ms). -/
structure PingEnv where
  pingerOk : Bool
  sendResult : Except String Nat

/-- `network::ping_host` (network/mod.rs, lines 12-25): convert the host
string with `IpAddr::from_str` — on failure return the conversion error with
no probe performed — then create the pinger and send one echo request. -/
def pingHost (env : PingEnv) (host : String) (_timeout_ms : Nat) :
    List NetEvent × Except String Nat :=
  match ipAddrFromStr host with
  | none => ([], .error "IP 주소 변환 실패")
  | some ip =>
    if env.pingerOk then
      match env.sendResult with
      | .error e => ([.icmpSend ip], .error e)
      | .ok rtt => ([.icmpSend ip], .ok rtt)
    else ([], .error "Pinger 생성 실패")

/-! ## Configuration persistence (config/mod.rs, load_config / save_config)

The `toml` serialization layer is modelled at the level of the TOML document
tree that serde produces for `Config`: `None` optional fields are omitted,
everything else is written under its field name.  The file system is a map
from paths to stored documents. -/

inductive Toml where
  | str (s : String)
  | nat (n : Nat)
  | bool (b : Bool)
  | arr (xs : List Toml)
  | table (kvs : List (String × Toml))

/-- Key lookup in a TOML table. -/
def tomlLookup (kvs : List (String × Toml)) (k : String) : Option Toml :=
  match kvs with
  | [] => none
  | (k', v) :: rest => if k' = k then some v else tomlLookup rest k

/-- Serialization of a `NetworkTarget` (serde derive: fields in declaration
order, `None` fields omitted). -/
def encodeTarget (t : NetworkTarget) : Toml :=
  .table ([("name", .str t.name), ("address", .str t.address)]
    ++ (match t.port with | some p => [("port", .nat p)] | none => [])
    ++ (match t.timeout_ms with | some m => [("timeout_ms", .nat m)] | none => [])
    ++ (match t.retry_count with | some r => [("retry_count", .nat r)] | none => []))

/-- Serialization of a `RecoveryAction`. -/
def encodeAction (a : RecoveryAction) : Toml :=
  .table ([("name", .str a.name), ("command", .str a.command)]
    ++ (match a.wait_after_ms with | some m => [("wait_after_ms", .nat m)] | none => []))

/-- Serialization of a `Config`. -/
def encodeConfig (c : Config) : Toml :=
  .table ([("default_target", .str c.default_target),
           ("check_interval_sec", .nat c.check_interval_sec),
           ("ping_timeout_ms", .nat c.ping_timeout_ms),
           ("retry_count", .nat c.retry_count),
           ("targets", .arr (c.targets.map encodeTarget)),
           ("recovery_actions", .arr (c.recovery_actions.map encodeAction))]
    ++ (match c.log_file with | some f => [("log_file", .str f)] | none => [])
    ++ [("notification_enabled", .bool c.notification_enabled)]
    ++ (match c.notification_command with
        | some s => [("notification_command", .str s)] | none => []))

/-- Required string field. -/
def reqStr (kvs : List (String × Toml)) (k : String) : Except String String :=
  match tomlLookup kvs k with
  | some (.str s) => .ok s
  | some _ => .error (k ++ ": invalid type")
  | none => .error (k ++ ": missing field")

/-- Required integer field. -/
def reqNat (kvs : List (String × Toml)) (k : String) : Except String Nat :=
  match tomlLookup kvs k with
  | some (.nat n) => .ok n
  | some _ => .error (k ++ ": invalid type")
  | none => .error (k ++ ": missing field")

/-- Required boolean field. -/
def reqBool (kvs : List (String × Toml)) (k : String) : Except String Bool :=
  match tomlLookup kvs k with
  | some (.bool b) => .ok b
  | some _ => .error (k ++ ": invalid type")
  | none => .error (k ++ ": missing field")

/-- Optional string field: absent key deserializes to `None`. -/
def optStr (kvs : List (String × Toml)) (k : String) : Except String (Option String) :=
  match tomlLookup kvs k with
  | some (.str s) => .ok (some s)
  | some _ => .error (k ++ ": invalid type")
  | none => .ok none

/-- Optional integer field: absent key deserializes to `None`. -/
def optNat (kvs : List (String × Toml)) (k : String) : Except String (Option Nat) :=
  match tomlLookup kvs k with
  | some (.nat n) => .ok (some n)
  | some _ => .error (k ++ ": invalid type")
  | none => .ok none

/-- Deserialization of a `NetworkTarget`. -/
def decodeTarget (v : Toml) : Except String NetworkTarget :=
  match v with
  | .table kvs => do
    let name ← reqStr kvs "name"
    let address ← reqStr kvs "address"
    let port ← optNat kvs "port"
    let timeout_ms ← optNat kvs "timeout_ms"
    let retry_count ← optNat kvs "retry_count"
    pure { name, address, port, timeout_ms, retry_count }
  | _ => .error "target: expected table"

/-- Deserialization of a `RecoveryAction`. -/
def decodeAction (v : Toml) : Except String RecoveryAction :=
  match v with
  | .table kvs => do
    let name ← reqStr kvs "name"
    let command ← reqStr kvs "command"
    let wait_after_ms ← optNat kvs "wait_after_ms"
    pure { name, command, wait_after_ms }
  | _ => .error "recovery action: expected table"

/-- Deserialization of a list of targets. -/
def decodeTargets : List Toml → Except String (List NetworkTarget)
  | [] => .ok []
  | v :: rest => do
    let t ← decodeTarget v
    let ts ← decodeTargets rest
    pure (t :: ts)

/-- Deserialization of a list of recovery actions. -/
def decodeActions : List Toml → Except String (List RecoveryAction)
  | [] => .ok []
  | v :: rest => do
    let a ← decodeAction v
    let as' ← decodeActions rest
    pure (a :: as')

/-- Deserialization of a `Config` (`toml::from_str`). -/
def decodeConfig (v : Toml) : Except String Config :=
  match v with
  | .table kvs => do
    let default_target ← reqStr kvs "default_target"
    let check_interval_sec ← reqNat kvs "check_interval_sec"
    let ping_timeout_ms ← reqNat kvs "ping_timeout_ms"
    let retry_count ← reqNat kvs "retry_count"
    let targets ←
      match tomlLookup kvs "targets" with
      | some (.arr xs) => decodeTargets xs
      | some _ => .error "targets: invalid type"
      | none => .error "targets: missing field"
    let recovery_actions ←
      match tomlLookup kvs "recovery_actions" with
      | some (.arr xs) => decodeActions xs
      | some _ => .error "recovery_actions: invalid type"
      | none => .error "recovery_actions: missing field"
    let log_file ← optStr kvs "log_file"
    let notification_enabled ← reqBool kvs "notification_enabled"
    let notification_command ← optStr kvs "notification_command"
    pure { default_target, check_interval_sec, ping_timeout_ms, retry_count,
           targets, recovery_actions, log_file, notification_enabled,
           notification_command }
  | _ => .error "config: expected table"

/-- The file system: a map from paths to stored TOML documents. -/
def FS : Type := String → Option Toml

/-- Writing a file. -/
def fsWrite (fs : FS) (path : String) (doc : Toml) : FS :=
  fun p => if p = path then some doc else fs p

/-- `config::load_config`: when the file does not exist, serialize
`Config::default`, write it, and return the default; otherwise read and
parse the file.  Returns the loaded configuration together with the file
system left behind. -/
def load_config (fs : FS) (path : String) : Except String (Config × FS) :=
  match fs path with
  | none =>
    let d := Config.defaultConfig
    .ok (d, fsWrite fs path (encodeConfig d))
  | some doc =>
    match decodeConfig doc with
    | .ok c => .ok (c, fs)
    | .error e => .error e

/-- `config::save_config`: serialize and write. -/
def save_config (fs : FS) (path : String) (c : Config) : FS :=
  fsWrite fs path (encodeConfig c)

/-! ## Derived observations on traces -/

/-- The names of the recovery actions whose command execution was started
(the `execAction` log lines), in order. -/
def attemptedActions (evs : List Event) : List String :=
  evs.filterMap fun e =>
    match e with
    | .execAction n => some n
    | _ => none

/-- The (attempt index, outcome) pairs of the probe-attempt log lines. -/
def attemptLogs (evs : List Event) : List (Nat × Bool) :=
  evs.filterMap fun e =>
    match e with
    | .pingAttempt _ a ok => some (a, ok)
    | _ => none

/-- Whether an event is a TCP port check. -/
def isPortCheck : Event → Bool
  | .portCheck _ _ _ _ => true
  | _ => false

/-- The TCP port-check events of a trace. -/
def portChecks (evs : List Event) : List Event :=
  evs.filter isPortCheck

/-- Recovery stops at action `i` exactly when its command succeeded and the
verification ping after it succeeded. -/
def recoveredAt (env : CycleEnv) (i : Nat) : Bool :=
  (match env.recCmd i with | .ok _ => true | .error _ => false) && env.recVerify i

/-- The names the coordinator attempts, computed from the plan and the
environment: every action is attempted in order until (and including) the
first one at which `recoveredAt` holds; a failing command does not stop the
walk. -/
def plannedAttempts (env : CycleEnv) : List RecoveryAction → Nat → List String
  | [], _ => []
  | a :: rest, idx =>
    a.name :: (if recoveredAt env idx then [] else plannedAttempts env rest (idx + 1))

/-- The expected trace of `m` consecutive failed probe attempts starting at
attempt number `start`, each followed by the 500ms backoff sleep. -/
def failRun (name : String) (start : Nat) : Nat → List Event
  | 0 => []
  | m + 1 => .pingAttempt name start false :: .backoffSleep :: failRun name (start + 1) m

/-! ## Recovery coordinator lemmas -/

lemma recoverFrom_ok (config : Config) (env : CycleEnv) :
    ∀ acts idx, (recoverFrom config env acts idx).2 = .ok () := by
  intro acts
  induction acts with
  | nil => intro idx; rfl
  | cons a rest ih =>
    intro idx
    unfold recoverFrom
    cases env.recCmd idx with
    | error e => simpa using ih (idx + 1)
    | ok out =>
      cases hv : env.recVerify idx with
      | true => simp [hv]
      | false => simpa [hv] using ih (idx + 1)

@[simp] lemma attemptedActions_nil : attemptedActions [] = [] := rfl

@[simp] lemma attemptedActions_execAction (n : String) (l : List Event) :
    attemptedActions (Event.execAction n :: l) = n :: attemptedActions l := by
  simp [attemptedActions]

@[simp] lemma attemptedActions_actionFailed (n s : String) (l : List Event) :
    attemptedActions (Event.actionFailed n s :: l) = attemptedActions l := by
  simp [attemptedActions]

@[simp] lemma attemptedActions_actionSucceeded (n : String) (l : List Event) :
    attemptedActions (Event.actionSucceeded n :: l) = attemptedActions l := by
  simp [attemptedActions]

@[simp] lemma attemptedActions_verifyProbe (t : String) (ms : Nat) (ok : Bool)
    (l : List Event) :
    attemptedActions (Event.verifyProbe t ms ok :: l) = attemptedActions l := by
  simp [attemptedActions]

@[simp] lemma attemptedActions_recovered (l : List Event) :
    attemptedActions (Event.recovered :: l) = attemptedActions l := by
  simp [attemptedActions]

@[simp] lemma attemptedActions_allActionsFailed (l : List Event) :
    attemptedActions (Event.allActionsFailed :: l) = attemptedActions l := by
  simp [attemptedActions]

@[simp] lemma attemptedActions_append (l1 l2 : List Event) :
    attemptedActions (l1 ++ l2) = attemptedActions l1 ++ attemptedActions l2 := by
  simp [attemptedActions]

@[simp] lemma attemptedActions_waitEvents (a : RecoveryAction) :
    attemptedActions (waitEvents a) = [] := by
  unfold waitEvents
  cases a.wait_after_ms <;> simp [attemptedActions]

@[simp] lemma attemptedActions_notifyEvents (config : Config) (env : CycleEnv) :
    attemptedActions (notifyEvents config env) = [] := by
  unfold notifyEvents
  cases config.notification_enabled
  · simp [attemptedActions]
  · cases config.notification_command
    · simp [attemptedActions]
    · cases env.notify <;> simp [attemptedActions]

lemma recoverFrom_attempted (config : Config) (env : CycleEnv) :
    ∀ acts idx, attemptedActions (recoverFrom config env acts idx).1 =
      plannedAttempts env acts idx := by
  intro acts
  induction acts with
  | nil => intro idx; rfl
  | cons a rest ih =>
    intro idx
    unfold recoverFrom plannedAttempts
    cases hc : env.recCmd idx with
    | error e => simp [recoveredAt, hc, ih (idx + 1)]
    | ok out =>
      cases hv : env.recVerify idx with
      | true => simp [recoveredAt, hc, hv]
      | false => simp [recoveredAt, hc, hv, ih (idx + 1)]

lemma runCycle_ok (config : Config) (env : CycleEnv) :
    (runCycle config env).2 = .ok () := by
  unfold runCycle
  cases h : runTargets config env with
  | mk evs allFailed =>
    by_cases hb : (allFailed && !config.recovery_actions.isEmpty) = true
    · simp [hb, performRecoveryActions, recoverFrom_ok]
    · simp [hb]

/-! ## Probe retry-loop lemmas -/

@[simp] lemma attemptLogs_nil : attemptLogs [] = [] := rfl

@[simp] lemma attemptLogs_pingAttempt (n : String) (a : Nat) (ok : Bool) (l : List Event) :
    attemptLogs (Event.pingAttempt n a ok :: l) = (a, ok) :: attemptLogs l := by
  simp [attemptLogs]

@[simp] lemma attemptLogs_backoff (l : List Event) :
    attemptLogs (Event.backoffSleep :: l) = attemptLogs l := by
  simp [attemptLogs]

@[simp] lemma attemptLogs_append (l1 l2 : List Event) :
    attemptLogs (l1 ++ l2) = attemptLogs l1 ++ attemptLogs l2 := by
  simp [attemptLogs]

lemma attemptLogs_failRun (name : String) :
    ∀ m start, attemptLogs (failRun name start m) =
      (List.range' start m).map fun j => (j, false) := by
  intro m
  induction m with
  | zero => intro start; rfl
  | succ m ih => intro start; simp [failRun, List.range', ih (start + 1)]

lemma probeGo_allFail (name : String) (ping : Nat → Bool) :
    ∀ m attempt, (∀ j, attempt ≤ j → j < attempt + m + 1 → ping j = false) →
      probeGo name ping attempt (m + 1) =
        (failRun name attempt m ++ [.pingAttempt name (attempt + m) false], false) := by
  intro m
  induction m with
  | zero =>
    intro attempt h
    have h0 : ping attempt = false := h attempt le_rfl (by omega)
    simp [probeGo, h0, failRun]
  | succ m ih =>
    intro attempt h
    have h0 : ping attempt = false := h attempt le_rfl (by omega)
    have hrec := ih (attempt + 1) fun j hj1 hj2 => h j (by omega) (by omega)
    have harith : attempt + 1 + m = attempt + (m + 1) := by omega
    rw [show m + 1 + 1 = m + 2 from rfl]
    simp [probeGo, h0, hrec, failRun, harith]

lemma probeGo_firstSuccess (name : String) (ping : Nat → Bool) :
    ∀ m remaining attempt, ping (attempt + m) = true →
      (∀ j, attempt ≤ j → j < attempt + m → ping j = false) →
      m < remaining →
      probeGo name ping attempt remaining =
        (failRun name attempt m ++ [.pingAttempt name (attempt + m) true], true) := by
  intro m
  induction m with
  | zero =>
    intro remaining attempt hp _ hlt
    rw [Nat.add_zero] at hp
    cases remaining with
    | zero => omega
    | succ n =>
      cases n with
      | zero => simp [probeGo, hp, failRun]
      | succ r =>
        rw [show r + 1 + 1 = r + 2 from rfl]
        simp [probeGo, hp, failRun]
  | succ m ih =>
    intro remaining attempt hp hf hlt
    have h0 : ping attempt = false := hf attempt le_rfl (by omega)
    cases remaining with
    | zero => omega
    | succ n =>
      cases n with
      | zero => omega
      | succ r =>
        have harith : attempt + 1 + m = attempt + (m + 1) := by omega
        have hp' : ping (attempt + 1 + m) = true := by rw [harith]; exact hp
        have hf' : ∀ j, attempt + 1 ≤ j → j < attempt + 1 + m → ping j = false :=
          fun j h1 h2 => hf j (by omega) (by omega)
        have hrec := ih (r + 1) (attempt + 1) hp' hf' (by omega)
        rw [show r + 1 + 1 = r + 2 from rfl]
        simp [probeGo, h0, hrec, failRun, harith]

/-- The expected trace of a target that fails its whole attempt budget. -/
def allFailTrace (name : String) : Nat → List Event
  | 0 => []
  | m + 1 => failRun name 1 m ++ [.pingAttempt name (m + 1) false]

lemma probeTarget_failed_iff (config : Config) (ping : Nat → Bool) (t : NetworkTarget) :
    (probeTarget config ping t).2 = false ↔
      ∀ k, 1 ≤ k → k ≤ config.get_target_retry_count t → ping k = false := by
  constructor
  · intro hfail k h1 h2
    by_contra hk
    have hk' : ping k = true := by
      cases h : ping k with
      | true => rfl
      | false => exact absurd h hk
    have hex : ∃ j, ping (j + 1) = true := ⟨k - 1, by rwa [Nat.sub_add_cancel h1]⟩
    set j0 := Nat.find hex with hj0
    have hj0p : ping (j0 + 1) = true := Nat.find_spec hex
    have hj0min : ∀ i, i < j0 → ping (i + 1) = false := by
      intro i hi
      have := Nat.find_min hex hi
      cases h : ping (i + 1) with
      | true => exact absurd h this
      | false => rfl
    have hj0le : j0 ≤ k - 1 := Nat.find_min' hex (by rwa [Nat.sub_add_cancel h1])
    have hlt : j0 < config.get_target_retry_count t := by omega
    have := probeGo_firstSuccess t.name ping j0 (config.get_target_retry_count t) 1
      (by rw [show 1 + j0 = j0 + 1 from by omega]; exact hj0p)
      (by
        intro j hja hjb
        have hj : j - 1 < j0 := by omega
        have := hj0min (j - 1) hj
        rwa [Nat.sub_add_cancel hja] at this)
      hlt
    rw [probeTarget] at hfail
    rw [this] at hfail
    simp at hfail
  · intro hall
    cases hN : config.get_target_retry_count t with
    | zero => simp [probeTarget, hN, probeGo]
    | succ m =>
      have := probeGo_allFail t.name ping m 1 fun j hj1 hj2 => hall j hj1 (by omega)
      simp [probeTarget, hN, this]

lemma runTargets_allFailed_iff (config : Config) (env : CycleEnv) :
    (runTargets config env).2 = true ↔
      ∀ p ∈ config.targets.enum,
        ∀ k, 1 ≤ k → k ≤ config.get_target_retry_count p.2 → env.ping p.1 k = false := by
  have hsnd : (runTargets config env).2 =
      (config.targets.enum.map fun p => probeTarget config (env.ping p.1) p.2).all
        (fun r => !r.2) := rfl
  rw [hsnd]
  constructor
  · intro h p hp
    apply (probeTarget_failed_iff config (env.ping p.1) p.2).1
    have := List.all_eq_true.mp h _ (List.mem_map_of_mem _ hp)
    simpa using this
  · intro h
    apply List.all_eq_true.mpr
    intro r hr
    obtain ⟨p, hp, rfl⟩ := List.mem_map.mp hr
    simpa using (probeTarget_failed_iff config (env.ping p.1) p.2).2 (h p hp)

lemma probeGo_events (name : String) (ping : Nat → Bool) :
    ∀ remaining attempt e, e ∈ (probeGo name ping attempt remaining).1 →
      (∃ a ok, e = Event.pingAttempt name a ok) ∨ e = Event.backoffSleep := by
  intro remaining
  induction remaining with
  | zero => intro attempt e he; simp [probeGo] at he
  | succ n ih =>
    intro attempt e he
    cases n with
    | zero =>
      by_cases hp : ping attempt = true
      · simp [probeGo, hp] at he
        exact .inl ⟨_, _, he⟩
      · simp [probeGo, hp] at he
        exact .inl ⟨_, _, he⟩
    | succ r =>
      rw [show r + 1 + 1 = r + 2 from rfl] at he
      by_cases hp : ping attempt = true
      · simp [probeGo, hp] at he
        exact .inl ⟨_, _, he⟩
      · simp only [probeGo, hp, Bool.false_eq_true, if_false, List.mem_cons] at he
        rcases he with rfl | rfl | he
        · exact .inl ⟨_, _, rfl⟩
        · exact .inr rfl
        · exact ih (attempt + 1) e he

lemma runTargets_events (config : Config) (env : CycleEnv) :
    ∀ e ∈ (runTargets config env).1,
      (∃ n a ok, e = Event.pingAttempt n a ok) ∨ e = Event.backoffSleep := by
  intro e he
  unfold runTargets at he
  simp only [List.map_map, List.mem_flatten, List.mem_map] at he
  obtain ⟨l, ⟨p, hp, rfl⟩, hel⟩ := he
  rcases probeGo_events p.2.name (env.ping p.1) _ _ e hel with ⟨a, ok, rfl⟩ | rfl
  · exact .inl ⟨_, _, _, rfl⟩
  · exact .inr rfl

lemma runTargets_no_recoveryStart (config : Config) (env : CycleEnv) :
    Event.recoveryStart ∉ (runTargets config env).1 := by
  intro h
  rcases runTargets_events config env _ h with ⟨n, a, ok, h'⟩ | h' <;> exact Event.noConfusion h'

lemma runTargets_no_portCheck (config : Config) (env : CycleEnv) :
    portChecks (runTargets config env).1 = [] := by
  unfold portChecks
  rw [List.filter_eq_nil_iff]
  intro e he
  rcases runTargets_events config env e he with ⟨n, a, ok, rfl⟩ | rfl <;> simp [isPortCheck]

lemma waitEvents_events (a : RecoveryAction) :
    ∀ e ∈ waitEvents a, ∃ ms, e = Event.waitAfter ms := by
  unfold waitEvents
  cases a.wait_after_ms <;> simp

lemma notifyEvents_events (config : Config) (env : CycleEnv) :
    ∀ e ∈ notifyEvents config env,
      e = Event.notifySucceeded ∨ ∃ s, e = Event.notifyFailed s := by
  unfold notifyEvents
  cases config.notification_enabled
  · simp
  · cases config.notification_command
    · simp
    · cases env.notify <;> simp

lemma recoverFrom_events (config : Config) (env : CycleEnv) :
    ∀ acts idx e, e ∈ (recoverFrom config env acts idx).1 →
      isPortCheck e = false ∧ e ≠ Event.recoveryStart := by
  intro acts
  induction acts with
  | nil =>
    intro idx e he
    simp [recoverFrom] at he
    subst he
    simp [isPortCheck]
  | cons a rest ih =>
    intro idx e he
    unfold recoverFrom at he
    cases hc : env.recCmd idx with
    | error er =>
      rw [hc] at he
      simp only [List.mem_cons] at he
      rcases he with rfl | rfl | he
      · simp [isPortCheck]
      · simp [isPortCheck]
      · exact ih (idx + 1) e he
    | ok out =>
      rw [hc] at he
      cases hv : env.recVerify idx <;> rw [hv] at he
      · simp only [Bool.false_eq_true, if_false, List.mem_cons, List.mem_append] at he
        rcases he with (rfl | rfl | hw) | (rfl | he)
        · simp [isPortCheck]
        · simp [isPortCheck]
        · obtain ⟨ms, rfl⟩ := waitEvents_events a e hw
          simp [isPortCheck]
        · simp [isPortCheck]
        · exact ih (idx + 1) e he
      · simp only [if_true, List.mem_cons, List.mem_append] at he
        rcases he with (rfl | rfl | hw) | (rfl | rfl | hn)
        · simp [isPortCheck]
        · simp [isPortCheck]
        · obtain ⟨ms, rfl⟩ := waitEvents_events a e hw
          simp [isPortCheck]
        · simp [isPortCheck]
        · simp [isPortCheck]
        · rcases notifyEvents_events config env e hn with rfl | ⟨s, rfl⟩ <;>
            simp [isPortCheck]

lemma recoverFrom_no_recoveryStart (config : Config) (env : CycleEnv) (acts : List RecoveryAction) (idx : Nat) :
    Event.recoveryStart ∉ (recoverFrom config env acts idx).1 := by
  intro h
  exact (recoverFrom_events config env acts idx _ h).2 rfl

lemma recoverFrom_no_portCheck (config : Config) (env : CycleEnv) (acts : List RecoveryAction) (idx : Nat) :
    portChecks (recoverFrom config env acts idx).1 = [] := by
  unfold portChecks
  rw [List.filter_eq_nil_iff]
  intro e he
  simp [(recoverFrom_events config env acts idx e he).1]

/-! ## Claim theorems: recovery failure handling and the concurrency guard -/

/-- A three-action plan whose first action's command fails. -/
def cfgABC : Config :=
  { default_target := "8.8.8.8", check_interval_sec := 60, ping_timeout_ms := 1000,
    retry_count := 3, targets := [],
    recovery_actions :=
      [ { name := "A", command := "cmd-a", wait_after_ms := none },
        { name := "B", command := "cmd-b", wait_after_ms := none },
        { name := "C", command := "cmd-c", wait_after_ms := none } ],
    log_file := none, notification_enabled := false, notification_command := none }

/-- Effect outcomes in which action A's command fails and no verification
ping ever succeeds. -/
def envAFails : CycleEnv :=
  { ping := fun _ _ => false,
    recCmd := fun i => if i = 0 then .error "exit status 1" else .ok "",
    recVerify := fun _ => false,
    notify := .ok "" }

/-- C1 counterexample: with the plan [A(fails), B, C], the coordinator does
NOT abort after A — it logs A's failure and still attempts B and C, and it
returns `Ok(())` rather than any `RecoveryFailed` error. -/
theorem recovery_not_aborted_on_command_failure :
    Event.execAction "B" ∈ (performRecoveryActions cfgABC envAFails).1 ∧
    Event.execAction "C" ∈ (performRecoveryActions cfgABC envAFails).1 ∧
    (performRecoveryActions cfgABC envAFails).2 = .ok () := by
  refine ⟨by decide, by decide, rfl⟩

/-- C1 amended: a failing recovery command is logged and the plan continues
with the next action; the coordinator never signals an error (it returns
`Ok(())` on every path), and the actions attempted are exactly the plan's
names up to and including the first action whose command succeeded and whose
verification ping succeeded — command failures never cut the walk short. -/
theorem recovery_failure_is_nonfatal (config : Config) (env : CycleEnv) :
    (performRecoveryActions config env).2 = .ok () ∧
    attemptedActions (performRecoveryActions config env).1 =
      plannedAttempts env config.recovery_actions 0 :=
  ⟨recoverFrom_ok config env config.recovery_actions 0,
   recoverFrom_attempted config env config.recovery_actions 0⟩

/-- C5: starting the monitor while the process-wide guard is set yields the
AlreadyRunning outcome: the call logs the warning, performs no monitoring
work (its whole trace is that single warning), returns `Ok(())` immediately
and leaves the guard — and hence the running loop — untouched. -/
theorem start_monitoring_already_running (config : Config) (env : MonitorEnv) (fuel : Nat) :
    startMonitoring config env fuel { monitoringActive := true } =
      { events := [.alreadyRunningWarn], result := .ok ()
        state := { monitoringActive := true } } :=
  rfl

/-- Environment in which `ctrlc::set_handler` fails (as happens in the
shipped binary, where main.rs installs its own Ctrl+C handler before
spawning `start_monitoring`). -/
def envNoCtrlc : MonitorEnv :=
  { ctrlcOk := false, runFlag := fun _ => false
    cycle := fun _ =>
      { ping := fun _ _ => false, recCmd := fun _ => .ok ""
        recVerify := fun _ => false, notify := .ok "" } }

/-- C4 (code bug): on the early-exit path where the Ctrl+C handler setup
fails, `start_monitoring` returns the error with `MONITORING_ACTIVE` still
set — the guard is cleared only on the normal loop-exit path — so every
subsequent invocation is stuck at the AlreadyRunning no-op and no loop can
ever be started again in the process. -/
theorem guard_leaks_on_handler_setup_failure :
    (startMonitoring Config.defaultConfig envNoCtrlc 1
        { monitoringActive := false }).state.monitoringActive = true ∧
    (startMonitoring Config.defaultConfig envNoCtrlc 1
        { monitoringActive := false }).result = .error "ctrlc set_handler failed" ∧
    (startMonitoring Config.defaultConfig envNoCtrlc 1
        (startMonitoring Config.defaultConfig envNoCtrlc 1
          { monitoringActive := false }).state).events = [.alreadyRunningWarn] :=
  ⟨rfl, rfl, rfl⟩

/-! ## Claim theorems: aggregation, retry accounting, port checks -/

/-- C2: in a cycle, the recovery coordinator is invoked (the aggregate
failure log `recoveryStart` appears in the cycle trace) if and only if every
configured target exhausted its whole probe attempt budget with no successful
attempt and the recovery plan is non-empty; a single successful attempt on
any target suppresses recovery. -/
theorem recovery_invoked_iff_all_targets_failed (config : Config) (env : CycleEnv) :
    Event.recoveryStart ∈ (runCycle config env).1 ↔
      ((∀ p ∈ config.targets.enum,
          ∀ k, 1 ≤ k → k ≤ config.get_target_retry_count p.2 → env.ping p.1 k = false) ∧
        config.recovery_actions ≠ []) := by
  have hev := runTargets_no_recoveryStart config env
  have hall := runTargets_allFailed_iff config env
  unfold runCycle
  cases h : runTargets config env with
  | mk evs allFailed =>
    rw [h] at hev hall
    simp only at hev hall
    dsimp only
    by_cases hb : (allFailed && !config.recovery_actions.isEmpty) = true
    · rw [if_pos hb]
      rw [Bool.and_eq_true] at hb
      rcases hb with ⟨ha, hne⟩
      constructor
      · intro _
        refine ⟨hall.mp ha, ?_⟩
        intro hnil
        rw [hnil] at hne
        simp at hne
      · intro _
        simp
    · rw [if_neg hb]
      constructor
      · intro hin
        exact absurd hin hev
      · rintro ⟨h1, h2⟩
        refine absurd ?_ hb
        rw [Bool.and_eq_true]
        refine ⟨hall.mpr h1, ?_⟩
        simpa using h2

/-- C3: for a target with effective attempt budget `N`
(`Config.get_target_retry_count`), a target failing every attempt produces
the trace of `N` logged attempts numbered `1..N` separated by 500ms backoff
sleeps and the failure flag; a target first succeeding at attempt `k ≤ N`
produces exactly `k` logged attempts (the first `k - 1` failures each
followed by the backoff) and the success flag. -/
theorem retry_loop_attempt_accounting (config : Config) (t : NetworkTarget)
    (ping : Nat → Bool) (k : Nat) :
    ((∀ j, 1 ≤ j → j ≤ config.get_target_retry_count t → ping j = false) →
      probeTarget config ping t =
        (allFailTrace t.name (config.get_target_retry_count t), false) ∧
      attemptLogs (probeTarget config ping t).1 =
        (List.range' 1 (config.get_target_retry_count t)).map fun j => (j, false)) ∧
    (1 ≤ k → k ≤ config.get_target_retry_count t → ping k = true →
      (∀ j, 1 ≤ j → j < k → ping j = false) →
      probeTarget config ping t =
        (failRun t.name 1 (k - 1) ++ [.pingAttempt t.name k true], true) ∧
      attemptLogs (probeTarget config ping t).1 =
        ((List.range' 1 (k - 1)).map fun j => (j, false)) ++ [(k, true)]) := by
  constructor
  · intro hall
    cases hN : config.get_target_retry_count t with
    | zero =>
      constructor
      · simp [probeTarget, hN, probeGo, allFailTrace]
      · simp [probeTarget, hN, probeGo]
    | succ m =>
      have h := probeGo_allFail t.name ping m 1 fun j hj1 hj2 => hall j hj1 (by omega)
      have h1m : 1 + m = m + 1 := by omega
      constructor
      · rw [probeTarget, hN, h, allFailTrace, h1m]
      · rw [probeTarget, hN, h]
        simp only [attemptLogs_append, attemptLogs_failRun, attemptLogs_pingAttempt,
          attemptLogs_nil, h1m]
        rw [List.range'_concat, List.map_append]
        simp [Nat.one_mul, Nat.add_comm]
  · intro h1 h2 hk hprev
    have h := probeGo_firstSuccess t.name ping (k - 1) (config.get_target_retry_count t) 1
      (by rw [show 1 + (k - 1) = k from by omega]; exact hk)
      (fun j hj1 hj2 => hprev j hj1 (by omega))
      (by omega)
    rw [show 1 + (k - 1) = k from by omega] at h
    constructor
    · rw [probeTarget, h]
    · rw [probeTarget, h]
      simp [attemptLogs_append, attemptLogs_failRun]

/-- Concrete target and configuration exercising the retry accounting. -/
def tgtW : NetworkTarget :=
  { name := "W", address := "10.0.0.1", port := none, timeout_ms := none,
    retry_count := some 3 }

/-- Configuration holding `tgtW`. -/
def cfgW3 : Config :=
  { default_target := "8.8.8.8", check_interval_sec := 60, ping_timeout_ms := 1000,
    retry_count := 3, targets := [tgtW], recovery_actions := [], log_file := none,
    notification_enabled := false, notification_command := none }

/-- Witness for C3: with budget 3, failing every attempt yields the 3-attempt
failure trace, and succeeding on attempt 2 yields the 2-attempt success
trace. -/
theorem retry_loop_attempt_accounting_witness :
    probeTarget cfgW3 (fun _ => false) tgtW = (allFailTrace "W" 3, false) ∧
    probeTarget cfgW3 (fun j => j == 2) tgtW =
      (failRun "W" 1 1 ++ [.pingAttempt "W" 2 true], true) := by
  constructor
  · exact ((retry_loop_attempt_accounting cfgW3 tgtW (fun _ => false) 0).1
      fun j hj1 hj2 => rfl).1
  · exact ((retry_loop_attempt_accounting cfgW3 tgtW (fun j => j == 2) 2).2
      (by decide) (by decide) (by decide)
      (fun j hj1 hj2 => by
        have hj : j = 1 := by omega
        subst hj
        rfl)).1

lemma runCycle_no_portCheck (config : Config) (env : CycleEnv) :
    portChecks (runCycle config env).1 = [] := by
  have h1 := runTargets_no_portCheck config env
  have h2 := recoverFrom_no_portCheck config env config.recovery_actions 0
  unfold runCycle
  cases h : runTargets config env with
  | mk evs allFailed =>
    rw [h] at h1
    simp only at h1
    dsimp only
    by_cases hb : (allFailed && !config.recovery_actions.isEmpty) = true
    · rw [if_pos hb]
      simp only [performRecoveryActions]
      unfold portChecks at h1 h2 ⊢
      simp [List.filter_append, h1, h2, isPortCheck]
    · rw [if_neg hb]
      exact h1

lemma portChecks_checkStatus (config : Config) (senv : StatusEnv) :
    portChecks (checkStatus config senv) =
      config.targets.enum.filterMap fun p =>
        p.2.port.map fun port =>
          Event.portCheck p.2.name port (config.get_target_timeout p.2)
            (senv.portCheck p.1) := by
  unfold checkStatus portChecks
  induction config.targets.enum with
  | nil => rfl
  | cons p rest ih =>
    simp only [List.flatMap_cons, List.filterMap_cons, List.filter_append]
    rw [ih]
    cases hp : p.2.port with
    | none => simp [isPortCheck]
    | some port => simp [isPortCheck]

/-- Configuration with one port-declaring target and an environment for one
cycle. -/
def cfgPort : Config :=
  { default_target := "8.8.8.8", check_interval_sec := 60, ping_timeout_ms := 1000,
    retry_count := 1,
    targets := [{ name := "Web", address := "10.0.0.2", port := some 80,
                  timeout_ms := none, retry_count := none }],
    recovery_actions := [], log_file := none,
    notification_enabled := false, notification_command := none }

/-- Cycle effects for `cfgPort`. -/
def envPort : CycleEnv :=
  { ping := fun _ _ => true, recCmd := fun _ => .ok "",
    recVerify := fun _ => true, notify := .ok "" }

/-- C6 counterexample: a monitoring cycle over a target that declares port 80
performs zero TCP-connect checks — not "exactly one per port-declaring
target"; the monitoring loop never port-checks at all. -/
theorem monitoring_cycle_performs_no_port_check :
    (cfgPort.targets.any fun t => t.port.isSome) = true ∧
    portChecks (runCycle cfgPort envPort).1 = [] := by
  refine ⟨rfl, by decide⟩

/-- C6 amended: the monitoring loop's cycle performs no TCP port checks
whatsoever (so the aggregate recovery trigger can only depend on ping
outcomes); port checks happen only in the one-shot status pass
(`check_status`), where every target that declares a port gets exactly one
TCP-connect check with its per-target timeout and no retry. -/
theorem port_checks_only_in_status_pass (config : Config) (cenv : CycleEnv)
    (senv : StatusEnv) :
    portChecks (runCycle config cenv).1 = [] ∧
    portChecks (checkStatus config senv) =
      config.targets.enum.filterMap fun p =>
        p.2.port.map fun port =>
          Event.portCheck p.2.name port (config.get_target_timeout p.2)
            (senv.portCheck p.1) :=
  ⟨runCycle_no_portCheck config cenv, portChecks_checkStatus config senv⟩

/-! ## Claim theorems: verified recovery success and plan exhaustion -/

lemma recoverFrom_recovered_at (config : Config) (env : CycleEnv) :
    ∀ acts idx i, i < acts.length →
      (∀ j, j < i → recoveredAt env (idx + j) = false) →
      recoveredAt env (idx + i) = true →
      (recoverFrom config env acts idx).2 = .ok () ∧
      attemptedActions (recoverFrom config env acts idx).1 =
        (acts.map fun a => a.name).take (i + 1) ∧
      Event.recovered ∈ (recoverFrom config env acts idx).1 ∧
      Event.verifyProbe config.default_target config.ping_timeout_ms true ∈
        (recoverFrom config env acts idx).1 ∧
      (∀ e ∈ notifyEvents config env, e ∈ (recoverFrom config env acts idx).1) := by
  intro acts
  induction acts with
  | nil =>
    intro idx i hi
    simp at hi
  | cons a rest ih =>
    intro idx i hi hprev htop
    cases i with
    | zero =>
      rw [Nat.add_zero] at htop
      unfold recoveredAt at htop
      rw [Bool.and_eq_true] at htop
      rcases htop with ⟨hcmd, hv⟩
      cases hc : env.recCmd idx with
      | error er => rw [hc] at hcmd; simp at hcmd
      | ok out =>
        unfold recoverFrom
        rw [hc, hv, if_pos rfl]
        refine ⟨rfl, ?_, ?_, ?_, ?_⟩
        · simp
        · simp
        · simp
        · intro e he
          simp [List.mem_append, he]
    | succ i' =>
      have h0 : recoveredAt env idx = false := by
        have := hprev 0 (by omega)
        simpa using this
      have hprev' : ∀ j, j < i' → recoveredAt env (idx + 1 + j) = false := by
        intro j hj
        have := hprev (j + 1) (by omega)
        rwa [show idx + (j + 1) = idx + 1 + j from by omega] at this
      have htop' : recoveredAt env (idx + 1 + i') = true := by
        rwa [show idx + (i' + 1) = idx + 1 + i' from by omega] at htop
      have hlen : i' < rest.length := by
        simpa using hi
      have hrec := ih (idx + 1) i' hlen hprev' htop'
      unfold recoverFrom
      cases hc : env.recCmd idx with
      | error er =>
        refine ⟨hrec.1, ?_, ?_, ?_, ?_⟩
        · simp [hrec.2.1]
        · simp [hrec.2.2.1]
        · simp [hrec.2.2.2.1]
        · intro e he
          simp [hrec.2.2.2.2 e he]
      | ok out =>
        have hv : env.recVerify idx = false := by
          unfold recoveredAt at h0
          rw [hc] at h0
          simpa using h0
        rw [hv]
        simp only [Bool.false_eq_true, if_false]
        refine ⟨hrec.1, ?_, ?_, ?_, ?_⟩
        · simp [hrec.2.1]
        · simp [List.mem_append, hrec.2.2.1]
        · simp [List.mem_append, hrec.2.2.2.1]
        · intro e he
          simp [List.mem_append, hrec.2.2.2.2 e he]

/-- C7: if every action before index `i` failed to recover (command failure
or verification failure) and action `i`'s command succeeds with a successful
verification ping of the default target at the default timeout, the
coordinator logs recovery and returns `Ok(())` right there: only the first
`i + 1` actions are ever attempted, and the notification command is fired
best-effort — its failure is merely logged (`notifyFailed`) and the outcome
is still `Ok(())`. -/
theorem first_verified_success_stops_plan (config : Config) (env : CycleEnv)
    (i : Nat) (out : String)
    (hi : i < config.recovery_actions.length)
    (hprev : ∀ j, j < i → recoveredAt env j = false)
    (hcmd : env.recCmd i = .ok out)
    (hver : env.recVerify i = true) :
    (performRecoveryActions config env).2 = .ok () ∧
    attemptedActions (performRecoveryActions config env).1 =
      (config.recovery_actions.map fun a => a.name).take (i + 1) ∧
    Event.recovered ∈ (performRecoveryActions config env).1 ∧
    Event.verifyProbe config.default_target config.ping_timeout_ms true ∈
      (performRecoveryActions config env).1 ∧
    (config.notification_enabled = true →
      ∀ c, config.notification_command = some c →
        (∀ e, env.notify = .error e →
            Event.notifyFailed e ∈ (performRecoveryActions config env).1) ∧
        (∀ o, env.notify = .ok o →
            Event.notifySucceeded ∈ (performRecoveryActions config env).1)) := by
  have habs : recoveredAt env (0 + i) = true := by
    rw [Nat.zero_add]
    unfold recoveredAt
    rw [hcmd, hver]
    rfl
  have h := recoverFrom_recovered_at config env config.recovery_actions 0 i hi
    (fun j hj => by rw [Nat.zero_add]; exact hprev j hj) habs
  refine ⟨h.1, h.2.1, h.2.2.1, h.2.2.2.1, ?_⟩
  intro hne c hnc
  constructor
  · intro e hn
    apply h.2.2.2.2
    unfold notifyEvents
    rw [hne, hnc, hn]
    simp
  · intro o hn
    apply h.2.2.2.2
    unfold notifyEvents
    rw [hne, hnc, hn]
    simp

/-- Plan for the C7 witness: three actions, verification succeeds after the
second, notification enabled with a failing notification command. -/
def cfgW7 : Config :=
  { default_target := "8.8.8.8", check_interval_sec := 60, ping_timeout_ms := 1000,
    retry_count := 3, targets := [],
    recovery_actions :=
      [ { name := "R1", command := "c1", wait_after_ms := some 100 },
        { name := "R2", command := "c2", wait_after_ms := none },
        { name := "R3", command := "c3", wait_after_ms := none } ],
    log_file := none, notification_enabled := true,
    notification_command := some "notify-cmd" }

/-- Cycle effects for the C7 witness. -/
def envW7 : CycleEnv :=
  { ping := fun _ _ => false,
    recCmd := fun _ => .ok "",
    recVerify := fun i => i == 1,
    notify := .error "notify failed" }

/-- Witness for C7: R1 executes but fails verification, R2 recovers, R3 is
never attempted, and the failing notification leaves the outcome `Ok`. -/
theorem first_verified_success_stops_plan_witness :
    (performRecoveryActions cfgW7 envW7).2 = .ok () ∧
    attemptedActions (performRecoveryActions cfgW7 envW7).1 = ["R1", "R2"] ∧
    Event.recovered ∈ (performRecoveryActions cfgW7 envW7).1 ∧
    Event.notifyFailed "notify failed" ∈ (performRecoveryActions cfgW7 envW7).1 := by
  have h := first_verified_success_stops_plan cfgW7 envW7 1 "" (by decide)
    (fun j hj => by
      have hj0 : j = 0 := by omega
      subst hj0
      rfl)
    rfl rfl
  exact ⟨h.1, h.2.1, h.2.2.1, (h.2.2.2.2 rfl "notify-cmd" rfl).1 "notify failed" rfl⟩

lemma recoverFrom_exhausted_mem (config : Config) (env : CycleEnv) :
    ∀ acts idx, (∀ j, j < acts.length → recoveredAt env (idx + j) = false) →
      Event.allActionsFailed ∈ (recoverFrom config env acts idx).1 := by
  intro acts
  induction acts with
  | nil => intro idx h; simp [recoverFrom]
  | cons a rest ih =>
    intro idx h
    have h0 : recoveredAt env idx = false := by
      have := h 0 (by simp)
      simpa using this
    have hrest : ∀ j, j < rest.length → recoveredAt env (idx + 1 + j) = false := by
      intro j hj
      have := h (j + 1) (by simpa using Nat.succ_lt_succ hj)
      rwa [show idx + (j + 1) = idx + 1 + j from by omega] at this
    unfold recoverFrom
    cases hc : env.recCmd idx with
    | error er =>
      simp [ih (idx + 1) hrest]
    | ok out =>
      have hv : env.recVerify idx = false := by
        unfold recoveredAt at h0
        rw [hc] at h0
        simpa using h0
      rw [hv]
      simp only [Bool.false_eq_true, if_false]
      simp [List.mem_append, ih (idx + 1) hrest]

/-- C8: if no action of the plan ever passes verification, the coordinator
logs that all recovery actions failed and still returns `Ok(())`, and the
monitoring loop therefore proceeds to the cadence sleep and the next cycle
instead of aborting. -/
theorem plan_exhaustion_is_not_an_error (config : Config) (env : CycleEnv)
    (menv : MonitorEnv) (fuel i0 : Nat)
    (hnone : ∀ j, j < config.recovery_actions.length → recoveredAt env j = false)
    (hrun : menv.runFlag i0 = true) :
    (performRecoveryActions config env).2 = .ok () ∧
    Event.allActionsFailed ∈ (performRecoveryActions config env).1 ∧
    monitorLoop config menv (fuel + 1) i0 =
      ((runCycle config (menv.cycle i0)).1 ++
         Event.cadenceSleep config.check_interval_sec ::
           (monitorLoop config menv fuel (i0 + 1)).1,
       (monitorLoop config menv fuel (i0 + 1)).2) := by
  refine ⟨recoverFrom_ok config env _ 0, ?_, ?_⟩
  · have := recoverFrom_exhausted_mem config env config.recovery_actions 0
      fun j hj => by
        rw [Nat.zero_add]
        exact hnone j hj
    simpa [performRecoveryActions] using this
  · have hok := runCycle_ok config (menv.cycle i0)
    have hunf : monitorLoop config menv (fuel + 1) i0 =
        if menv.runFlag i0 then
          match runCycle config (menv.cycle i0) with
          | (evs, .error e) => (evs, .error e)
          | (evs, .ok _) =>
            (evs ++ Event.cadenceSleep config.check_interval_sec ::
               (monitorLoop config menv fuel (i0 + 1)).1,
             (monitorLoop config menv fuel (i0 + 1)).2)
        else ([], .ok ()) := rfl
    cases hc : runCycle config (menv.cycle i0) with
    | mk evs r =>
      rw [hc] at hok
      simp only at hok
      subst hok
      rw [hunf, hrun, hc]
      rfl

/-- Configuration and environments for the C8 witness: one recovery action
whose command fails, targets all unreachable, and the loop flag true for
exactly the first iteration. -/
def cfgW8 : Config :=
  { default_target := "8.8.8.8", check_interval_sec := 60, ping_timeout_ms := 1000,
    retry_count := 2,
    targets := [{ name := "T", address := "10.0.0.9", port := none,
                  timeout_ms := none, retry_count := none }],
    recovery_actions := [{ name := "R1", command := "c1", wait_after_ms := none }],
    log_file := none, notification_enabled := false, notification_command := none }

/-- Cycle effects for the C8 witness. -/
def envW8 : CycleEnv :=
  { ping := fun _ _ => false, recCmd := fun _ => .error "exit status 1",
    recVerify := fun _ => false, notify := .ok "" }

/-- Monitor-level effects for the C8 witness. -/
def menvW8 : MonitorEnv :=
  { ctrlcOk := true, runFlag := fun i => i == 0, cycle := fun _ => envW8 }

/-- Witness for C8 at a concrete run. -/
theorem plan_exhaustion_is_not_an_error_witness :
    (performRecoveryActions cfgW8 envW8).2 = .ok () ∧
    Event.allActionsFailed ∈ (performRecoveryActions cfgW8 envW8).1 ∧
    monitorLoop cfgW8 menvW8 2 0 =
      ((runCycle cfgW8 (menvW8.cycle 0)).1 ++
         Event.cadenceSleep cfgW8.check_interval_sec ::
           (monitorLoop cfgW8 menvW8 1 1).1,
       (monitorLoop cfgW8 menvW8 1 1).2) :=
  plan_exhaustion_is_not_an_error cfgW8 envW8 menvW8 1 0 (fun _ _ => rfl) rfl


/-! ## Claim theorems: the address gate and configuration persistence -/

/-- C10: `ping_host` converts the host string with `IpAddr::from_str` first;
for every host string that is not a literal IP address the conversion fails
and the function returns the conversion error at once — no ICMP probe is
sent, so hostnames are never resolved and such a target fails every probe
attempt. -/
theorem non_ip_host_errors_without_probe (env : PingEnv) (host : String)
    (tm : Nat) (h : ipAddrFromStr host = none) :
    pingHost env host tm = ([], .error "IP 주소 변환 실패") := by
  unfold pingHost
  rw [h]

/-- Witness for C10 at the DNS hostname "google.com". -/
theorem non_ip_host_errors_without_probe_witness :
    ipAddrFromStr "google.com" = none ∧
    pingHost { pingerOk := true, sendResult := .ok 10 } "google.com" 1000 =
      ([], .error "IP 주소 변환 실패") :=
  ⟨rfl, non_ip_host_errors_without_probe
    { pingerOk := true, sendResult := .ok 10 } "google.com" 1000 rfl⟩

/-- C9: over any file system and path, saving the in-memory default
configuration and then loading that path yields exactly the in-memory
default (field for field) together with the written file system; and when
the path is absent, `load_config` returns the default configuration and
persists its serialization at the path. -/
theorem config_save_load_roundtrip (fs : FS) (path : String) :
    load_config (save_config fs path Config.defaultConfig) path =
      .ok (Config.defaultConfig, save_config fs path Config.defaultConfig) ∧
    (fs path = none →
      load_config fs path =
        .ok (Config.defaultConfig, fsWrite fs path (encodeConfig Config.defaultConfig)) ∧
      fsWrite fs path (encodeConfig Config.defaultConfig) path =
        some (encodeConfig Config.defaultConfig)) := by
  have hdec : decodeConfig (encodeConfig Config.defaultConfig) =
      .ok Config.defaultConfig := rfl
  constructor
  · have hfs : save_config fs path Config.defaultConfig path =
        some (encodeConfig Config.defaultConfig) := by
      unfold save_config fsWrite
      simp
    unfold load_config
    rw [hfs]
    dsimp only
    rw [hdec]
  · intro h
    constructor
    · unfold load_config
      rw [h]
    · unfold fsWrite
      simp

/-- The empty file system. -/
def emptyFS : FS := fun _ => none

/-- Witness for C9: loading from an empty file system generates, persists
and returns the default configuration. -/
theorem config_save_load_roundtrip_witness :
    load_config emptyFS "config.toml" =
      .ok (Config.defaultConfig,
           fsWrite emptyFS "config.toml" (encodeConfig Config.defaultConfig)) ∧
    fsWrite emptyFS "config.toml" (encodeConfig Config.defaultConfig) "config.toml" =
      some (encodeConfig Config.defaultConfig) :=
  (config_save_load_roundtrip emptyFS "config.toml").2 rfl

end NetworkMonitor
